import Mathlib

/-!
Shallow embedding of the ARM7TDMI interpreter core of the
memetendo-unsafe-boy-advance repository (src/src/arm7tdmi/mod.rs,
src/src/arm7tdmi/op.rs, src/src/arm7tdmi/thumb.rs), together with proofs
about its exception controller, pipeline unit and ALU/shift semantics.

Machine integers are modelled as `Nat` with explicit reduction modulo
`2 ^ 32`; signed 32-bit views go through `Int`.  Fallible host arithmetic
(Rust's unchecked shifts and `u8` subtraction, which are program errors
that panic in debug builds) is modelled with `Option`.

The register-bank module (`reg.rs`) and the 32-bit decoder (`isa.rs`) are
declared by `mod reg;` / `mod isa;` in mod.rs but are not part of the
sources; the definitions below that correspond to them are modelled from
the specification and carry a doc comment saying so.
-/

namespace Memetendo

/-- `2 ^ 32`, the modulus of the 32-bit machine words (`u32` in the source). -/
def U32_MOD : Nat := 4294967296

/-- Reinterpret a `u32` bit pattern (a `Nat` below `U32_MOD`) as the signed
`i32` value it denotes in two's complement. -/
def toI32 (n : Nat) : Int :=
  if n < 2147483648 then (n : Int) else (n : Int) - 4294967296

/-- Rust `i32::overflowing_add` on `u32` bit patterns: the wrapped sum and
whether the signed addition left the `i32` range. -/
def i32_overflowing_add (x y : Nat) : Nat × Bool :=
  ((x + y) % U32_MOD,
   decide (toI32 x + toI32 y < -2147483648 ∨ 2147483647 < toI32 x + toI32 y))

/-- Rust `i32::overflowing_neg` on a `u32` bit pattern: negation wraps, and
overflows exactly on `i32::MIN` (bit pattern `2 ^ 31`). -/
def i32_overflowing_neg (x : Nat) : Nat × Bool :=
  ((U32_MOD - x % U32_MOD) % U32_MOD, decide (x % U32_MOD = 2147483648))

/-- Rust unchecked `i32` negation `-(x as i32)`: a program error (panic in
debug builds) on `i32::MIN`, hence `none` there. -/
def i32_neg (x : Nat) : Option Nat :=
  if x % U32_MOD = 2147483648 then none else some ((U32_MOD - x % U32_MOD) % U32_MOD)

/-- Rust `u32::checked_shl`: `none` when the shift amount is 32 or more,
otherwise the shifted value truncated to 32 bits. -/
def checked_shl (v s : Nat) : Option Nat :=
  if s < 32 then some (Nat.shiftLeft v s % U32_MOD) else none

/-- Rust `u32::checked_shr` (and, on nonnegative reinterpretation bounds,
the amount check of `i32::checked_shr`): `none` when the amount is 32 or
more. -/
def checked_shr (v s : Nat) : Option Nat :=
  if s < 32 then some (Nat.shiftRight v s) else none

/-- Rust unchecked `u32` shift left (`<<`): a program error (panic in debug
builds) when the amount is 32 or more. -/
def shl_u32 (v s : Nat) : Option Nat :=
  if s < 32 then some (Nat.shiftLeft v s % U32_MOD) else none

/-- Rust unchecked `u32` shift right (`>>`): a program error (panic in
debug builds) when the amount is 32 or more. -/
def shr_u32 (v s : Nat) : Option Nat :=
  if s < 32 then some (Nat.shiftRight v s) else none

/-- Arithmetic (sign extending) shift right of a 32-bit two's complement
bit pattern by `s < 32` places, as performed by Rust's `>>` on `i32`. -/
def asr32 (v s : Nat) : Nat :=
  if v < 2147483648 then v / 2 ^ s else v / 2 ^ s + (U32_MOD - U32_MOD / 2 ^ s)

/-- Rust `u32::rotate_right`: total, amount taken modulo 32. -/
def rotateRight32 (v s : Nat) : Nat :=
  Nat.lor (Nat.shiftRight v (s % 32)) (Nat.shiftLeft v (32 - s % 32) % U32_MOD)

/-- The two instruction-set states (mod.rs uses `OperationState` from the
absent reg.rs; the variants appear throughout mod.rs). -/
inductive OperationState
  | Arm
  | Thumb
  deriving DecidableEq

/-- Modelled from the spec: `OperationState::instr_size` lives in the
absent reg.rs; the spec fixes one instruction width as 4 bytes for the
32-bit set and 2 bytes for the 16-bit set. -/
def OperationState.instr_size : OperationState → Nat
  | OperationState.Arm => 4
  | OperationState.Thumb => 2

/-- The operation modes (mod.rs names them via the absent reg.rs; the spec
lists User, FIQ, Supervisor, Abort, IRQ, UndefinedInstr, System). -/
inductive OperationMode
  | User
  | FastInterrupt
  | Interrupt
  | Supervisor
  | Abort
  | UndefinedInstr
  | System
  deriving DecidableEq

/-- Register banks: FIQ banks indices 8-14, every other privileged non-FIQ
mode banks 13-14, and User/System share one bank (spec data model). -/
inductive BankIdx
  | usr
  | fiq
  | svc
  | abt
  | irq
  | und
  deriving DecidableEq

/-- Modelled from the spec: which bank an operation mode selects.
User/System share the `usr` bank; each other mode has its own. -/
def OperationMode.bank : OperationMode → BankIdx
  | OperationMode.User => BankIdx.usr
  | OperationMode.System => BankIdx.usr
  | OperationMode.FastInterrupt => BankIdx.fiq
  | OperationMode.Supervisor => BankIdx.svc
  | OperationMode.Abort => BankIdx.abt
  | OperationMode.Interrupt => BankIdx.irq
  | OperationMode.UndefinedInstr => BankIdx.und

/-- Modelled from the spec: the mode field bit encoding of the program
status register (reg.rs is absent; the standard ARM encodings are used so
that `bits` below is injective on the mode). -/
def OperationMode.psr_bits : OperationMode → Nat
  | OperationMode.User => 16
  | OperationMode.FastInterrupt => 17
  | OperationMode.Interrupt => 18
  | OperationMode.Supervisor => 19
  | OperationMode.Abort => 23
  | OperationMode.UndefinedInstr => 27
  | OperationMode.System => 31

/-- The current/saved program status register: condition flags, the two
interrupt masks, the instruction-set state and the mode (spec data model;
the concrete struct lives in the absent reg.rs, its fields are used
throughout mod.rs, op.rs and thumb.rs). -/
structure StatusRegister where
  negative : Bool
  zero : Bool
  carry : Bool
  overflow : Bool
  irq_disabled : Bool
  fiq_disabled : Bool
  state : OperationState
  mode : OperationMode
  deriving DecidableEq

/-- Modelled from the spec: `StatusRegister::set_nz_from` (absent reg.rs)
recomputes zero and negative from a 32-bit result, as every ALU routine in
op.rs and thumb.rs requires. -/
def StatusRegister.set_nz_from (sr : StatusRegister) (v : Nat) : StatusRegister :=
  { sr with zero := decide (v = 0), negative := Nat.testBit v 31 }

/-- Modelled from the spec: `StatusRegister::bits` (absent reg.rs) packs
the full status register into one word: N/Z/C/V at bits 31-28, the
interrupt masks at bits 7-6, the state bit at bit 5, the mode bits at the
bottom (consistent with mod.rs' `set_flags_from_bits(0b1010 << 28)` test). -/
def StatusRegister.bits (sr : StatusRegister) : Nat :=
  (cond sr.negative 2147483648 0) + (cond sr.zero 1073741824 0) +
    (cond sr.carry 536870912 0) + (cond sr.overflow 268435456 0) +
    (cond sr.irq_disabled 128 0) + (cond sr.fiq_disabled 64 0) +
    (cond (decide (sr.state = OperationState.Thumb)) 32 0) + sr.mode.psr_bits

/-- The register file: 16 active general registers, the current status
register, the active saved status register, and the per-bank stores that
`change_mode` swaps in and out (spec data model and design note; the
concrete struct lives in the absent reg.rs). -/
structure Registers where
  r : Fin 16 → Nat
  cpsr : StatusRegister
  spsr : Nat
  bank13 : BankIdx → Nat
  bank14 : BankIdx → Nat
  bankSpsr : BankIdx → Nat
  fiq8_12 : Fin 16 → Nat

/-- Modelled from the spec: `Registers::change_mode` (absent reg.rs) saves
the active banked registers into the current mode's bank, loads the target
mode's bank, swaps r8-r12 with the FIQ shadow exactly when moving between
the FIQ bank and a non-FIQ bank, preserves unbanked registers, and sets
the mode field of the current status register. -/
def Registers.change_mode (reg : Registers) (target : OperationMode) : Registers :=
  let cb := reg.cpsr.mode.bank
  let tb := target.bank
  let bank13 := fun b => if b = cb then reg.r 13 else reg.bank13 b
  let bank14 := fun b => if b = cb then reg.r 14 else reg.bank14 b
  let bankSpsr := fun b => if b = cb then reg.spsr else reg.bankSpsr b
  let swapFiq : Bool := decide (cb = BankIdx.fiq) != decide (tb = BankIdx.fiq)
  { r := fun j =>
      if j = (13 : Fin 16) then bank13 tb
      else if j = (14 : Fin 16) then bank14 tb
      else if swapFiq && decide (8 ≤ j.val) && decide (j.val ≤ 12) then reg.fiq8_12 j
      else reg.r j,
    cpsr := { reg.cpsr with mode := target },
    spsr := bankSpsr tb,
    bank13 := bank13,
    bank14 := bank14,
    bankSpsr := bankSpsr,
    fiq8_12 := fun j =>
      if swapFiq && decide (8 ≤ j.val) && decide (j.val ≤ 12) then reg.r j
      else reg.fiq8_12 j }

/-- mod.rs `Exception`: the seven exception kinds, declared in priority
order (lowest discriminant = highest priority). -/
inductive Exception
  | Reset
  | DataAbort
  | FastInterrupt
  | Interrupt
  | PrefetchAbort
  | SoftwareInterrupt
  | UndefinedInstr
  deriving DecidableEq

/-- mod.rs `Exception::priority`: the enum discriminant. -/
def Exception.priority : Exception → Fin 7
  | Exception.Reset => 0
  | Exception.DataAbort => 1
  | Exception.FastInterrupt => 2
  | Exception.Interrupt => 3
  | Exception.PrefetchAbort => 4
  | Exception.SoftwareInterrupt => 5
  | Exception.UndefinedInstr => 6

/-- mod.rs `Exception::from_priority` (via `from_repr`). -/
def Exception.from_priority : Nat → Option Exception
  | 0 => some Exception.Reset
  | 1 => some Exception.DataAbort
  | 2 => some Exception.FastInterrupt
  | 3 => some Exception.Interrupt
  | 4 => some Exception.PrefetchAbort
  | 5 => some Exception.SoftwareInterrupt
  | 6 => some Exception.UndefinedInstr
  | _ => none

/-- Total version of `Exception.from_priority` on the valid range, used to
model the `unwrap()` in `Cpu::step` (which can never fail there). -/
def from_priority_fin (p : Fin 7) : Exception :=
  (Exception.from_priority p.val).getD Exception.Reset

/-- mod.rs `Exception::vector_addr`. -/
def Exception.vector_addr : Exception → Nat
  | Exception.Reset => 0
  | Exception.UndefinedInstr => 4
  | Exception.SoftwareInterrupt => 8
  | Exception.PrefetchAbort => 12
  | Exception.DataAbort => 16
  | Exception.Interrupt => 24
  | Exception.FastInterrupt => 28

/-- mod.rs `Exception::entry_mode`. -/
def Exception.entry_mode : Exception → OperationMode
  | Exception.Reset => OperationMode.Supervisor
  | Exception.SoftwareInterrupt => OperationMode.Supervisor
  | Exception.PrefetchAbort => OperationMode.Abort
  | Exception.DataAbort => OperationMode.Abort
  | Exception.Interrupt => OperationMode.Interrupt
  | Exception.FastInterrupt => OperationMode.FastInterrupt
  | Exception.UndefinedInstr => OperationMode.UndefinedInstr

/-- mod.rs `Exception::disables_fiq`. -/
def Exception.disables_fiq (e : Exception) : Bool :=
  decide (e = Exception.Reset) || decide (e = Exception.FastInterrupt)

/-- mod.rs `RunState`. -/
inductive RunState
  | NotRunning
  | Running
  deriving DecidableEq

/-- mod.rs `Cpu`. -/
structure Cpu where
  run_state : RunState
  reg : Registers
  pipeline_instrs : Fin 2 → Nat
  pending_exceptions : Fin 7 → Bool

/-- The bus operations the core consumes (bus.rs `Bus` trait, restricted
to the reads the core performs); the bus state `B` is threaded explicitly
since `read_*` take `&mut self` in the source. -/
structure BusOps (B : Type) where
  read_hword : B → Nat → Nat × B
  read_word : B → Nat → Nat × B

/-- The stateless all-zero bus of the repository's tests (bus.rs `NullBus`,
whose `read_byte` always returns 0, so every derived read returns 0). -/
def NullBusOps : BusOps Unit :=
  { read_hword := fun b _ => (0, b), read_word := fun b _ => (0, b) }

/-- The PC alignment mask application of mod.rs `step_pipeline`:
`pc & !1` in Thumb state, `pc & !0b11` in Arm state. -/
def alignedPc (s : OperationState) (pc : Nat) : Nat :=
  match s with
  | OperationState.Thumb => Nat.land pc 4294967294
  | OperationState.Arm => Nat.land pc 4294967292

/-- The instruction fetch of mod.rs `step_pipeline`: a halfword read in
Thumb state, a word read in Arm state. -/
def fetchInstr {B : Type} (bops : BusOps B) (s : OperationState) (bus : B) (pc : Nat) :
    Nat × B :=
  match s with
  | OperationState.Thumb => bops.read_hword bus pc
  | OperationState.Arm => bops.read_word bus pc

/-- mod.rs `Cpu::step_pipeline`: align the PC, shift the pipeline, fetch
the next instruction at the aligned PC, advance the PC by one instruction
width (wrapping). -/
def step_pipeline {B : Type} (bops : BusOps B) (cpu : Cpu) (bus : B) : Cpu × B :=
  let pc0 := alignedPc cpu.reg.cpsr.state (cpu.reg.r 15)
  let f := fetchInstr bops cpu.reg.cpsr.state bus pc0
  ({ cpu with
      pipeline_instrs := fun i => if i = (0 : Fin 2) then cpu.pipeline_instrs 1 else f.1,
      reg := { cpu.reg with
        r := fun j =>
          if j = (15 : Fin 16) then (pc0 + cpu.reg.cpsr.state.instr_size) % U32_MOD
          else cpu.reg.r j } },
   f.2)

/-- mod.rs `Cpu::reload_pipeline`: write 0 into the soon-to-execute slot,
then perform one `step_pipeline`. -/
def reload_pipeline {B : Type} (bops : BusOps B) (cpu : Cpu) (bus : B) : Cpu × B :=
  step_pipeline bops
    { cpu with
      pipeline_instrs := fun i => if i = (0 : Fin 2) then 0 else cpu.pipeline_instrs i }
    bus

/-- mod.rs `Cpu::raise_exception`: idempotently mark the kind pending. -/
def raise_exception (cpu : Cpu) (e : Exception) : Cpu :=
  { cpu with
    pending_exceptions := fun q => if q = e.priority then true else cpu.pending_exceptions q }

/-- The masking guard at the top of mod.rs `Cpu::enter_exception`:
Interrupt is blocked by the interrupt-disable flag, FastInterrupt by the
fast-interrupt-disable flag. -/
def maskBlocked (cpu : Cpu) (e : Exception) : Bool :=
  (cpu.reg.cpsr.irq_disabled && decide (e = Exception.Interrupt)) ||
    (cpu.reg.cpsr.fiq_disabled && decide (e = Exception.FastInterrupt))

/-- mod.rs `Cpu::enter_exception`: refuse (returning `false`, with no state
change) when masked; otherwise snapshot the status register, change to the
entry mode, set the mask/state bits, store the snapshot into the new
mode's saved status register, set the link register to PC minus one (Arm)
instruction width, jump to the vector and reload the pipeline. -/
def enter_exception {B : Type} (bops : BusOps B) (cpu : Cpu) (bus : B)
    (exception : Exception) : (Cpu × B) × Bool :=
  if maskBlocked cpu exception then ((cpu, bus), false)
  else
    let old_cpsr := cpu.reg.cpsr
    let reg1 := Registers.change_mode cpu.reg exception.entry_mode
    let cpsr2 : StatusRegister :=
      { reg1.cpsr with
        fiq_disabled := reg1.cpsr.fiq_disabled || exception.disables_fiq,
        irq_disabled := true,
        state := OperationState.Arm }
    let reg2 := { reg1 with cpsr := cpsr2, spsr := StatusRegister.bits old_cpsr }
    let lr := (reg2.r 15 + (U32_MOD - OperationState.instr_size cpsr2.state)) % U32_MOD
    let reg3 :=
      { reg2 with
        r := fun j =>
          if j = (14 : Fin 16) then lr
          else if j = (15 : Fin 16) then exception.vector_addr
          else reg2.r j }
    let res := reload_pipeline bops { cpu with reg := reg3 } bus
    ((res.1, res.2), true)

/-- Clearing one pending-exception flag, as `replace(&mut ..., false)` does
for each visited priority in mod.rs `Cpu::step`. -/
def clearPending (cpu : Cpu) (p : Fin 7) : Cpu :=
  { cpu with
    pending_exceptions := fun q => if q = p then false else cpu.pending_exceptions q }

/-- The exception-servicing loop of mod.rs `Cpu::step`: visit the given
priorities in order, clearing each flag as it is visited; on the first
raised one whose entry is permitted, enter it, step the pipeline and stop
(reporting `true`). -/
def step_exceptions {B : Type} (bops : BusOps B) (cpu : Cpu) (bus : B) :
    List (Fin 7) → (Cpu × B) × Bool
  | [] => ((cpu, bus), false)
  | p :: rest =>
    let raised := cpu.pending_exceptions p
    let cpu1 := clearPending cpu p
    if raised then
      let e := enter_exception bops cpu1 bus (from_priority_fin p)
      if e.2 then (step_pipeline bops e.1.1 e.1.2, true)
      else step_exceptions bops e.1.1 e.1.2 rest
    else step_exceptions bops cpu1 bus rest

/-- The priorities 0..6 the loop in mod.rs `Cpu::step` iterates over. -/
def priorityList : List (Fin 7) := [0, 1, 2, 3, 4, 5, 6]

/-- mod.rs `Cpu::step`: no-op unless running; otherwise service at most
one exception, and if none was serviced execute the current pipeline
instruction (the decoders live in the absent isa.rs and the partial
thumb.rs, so execution is a parameter) and advance the pipeline. -/
def step {B : Type} (bops : BusOps B) (execArm execThumb : Cpu → B → Nat → Cpu × B)
    (cpu : Cpu) (bus : B) : Cpu × B :=
  if cpu.run_state = RunState.Running then
    let se := step_exceptions bops cpu bus priorityList
    if se.2 then se.1
    else
      let cpu1 := se.1.1
      let bus1 := se.1.2
      let instr := cpu1.pipeline_instrs 0
      let e :=
        match cpu1.reg.cpsr.state with
        | OperationState.Arm => execArm cpu1 bus1 instr
        | OperationState.Thumb => execThumb cpu1 bus1 (instr % 65536)
      step_pipeline bops e.1 e.2
  else (cpu, bus)

/-- mod.rs `Cpu::reset`: force the running state, clear all pending
exceptions, enter the Reset exception, step the pipeline once, then zero
the link register. -/
def reset {B : Type} (bops : BusOps B) (cpu : Cpu) (bus : B) : Cpu × B :=
  let cpu1 : Cpu :=
    { cpu with run_state := RunState.Running, pending_exceptions := fun _ => false }
  let e := enter_exception bops cpu1 bus Exception.Reset
  let s := step_pipeline bops e.1.1 e.1.2
  ({ s.1 with
      reg := { s.1.reg with
        r := fun j => if j = (14 : Fin 16) then 0 else s.1.reg.r j } },
   s.2)

namespace Op

/-- op.rs `execute_add_impl`: three-operand add on the status register;
two chained signed `overflowing_add`s give the result and the overflow
flag, the carry comes from the exact 64-bit sum, zero/negative from the
32-bit result. -/
def execute_add_impl (cpsr : StatusRegister) (update_cond : Bool) (a b c : Nat) :
    Nat × StatusRegister :=
  let a_b := i32_overflowing_add a b
  let r := i32_overflowing_add a_b.1 c
  if update_cond then
    let actual_result := a + b + c
    let cpsr1 :=
      { cpsr with
        overflow := a_b.2 || r.2,
        carry := decide (4294967295 < actual_result) }
    (r.1, cpsr1.set_nz_from r.1)
  else (r.1, cpsr)

/-- op.rs `execute_sub_impl`: add the wrapped negations; if negating `b`
overflowed (`b` is `i32::MIN`) force the overflow flag when updating.  The
negation of `c` is the unchecked `-(c as i32)`, hence `Option`. -/
def execute_sub_impl (cpsr : StatusRegister) (update_cond : Bool) (a b c : Nat) :
    Option (Nat × StatusRegister) :=
  let b_neg := i32_overflowing_neg b
  match i32_neg c with
  | none => none
  | some c_neg =>
    let r := execute_add_impl cpsr update_cond a b_neg.1 c_neg
    some (r.1, { r.2 with overflow := r.2.overflow || (update_cond && b_neg.2) })

/-- op.rs `Cpu::execute_add_cmn`. -/
def execute_add_cmn (cpsr : StatusRegister) (update_cond : Bool) (a b : Nat) :
    Nat × StatusRegister :=
  execute_add_impl cpsr update_cond a b 0

/-- op.rs `Cpu::execute_sub_cmp`. -/
def execute_sub_cmp (cpsr : StatusRegister) (update_cond : Bool) (a b : Nat) :
    Option (Nat × StatusRegister) :=
  execute_sub_impl cpsr update_cond a b 0

/-- op.rs `Cpu::execute_adc`. -/
def execute_adc (cpsr : StatusRegister) (update_cond : Bool) (a b : Nat) :
    Nat × StatusRegister :=
  execute_add_impl cpsr update_cond a b (cond cpsr.carry 1 0)

/-- op.rs `Cpu::execute_sbc`. -/
def execute_sbc (cpsr : StatusRegister) (update_cond : Bool) (a b : Nat) :
    Option (Nat × StatusRegister) :=
  execute_sub_impl cpsr update_cond a b (cond cpsr.carry 0 1)

/-- op.rs `Cpu::execute_lsl`: for a nonzero amount, shift by amount minus
one with `checked_shl` (0 on amount overflow), take the carry from bit 31,
then shift once more; amount 0 leaves value and carry alone.  Zero and
negative are recomputed in every case. -/
def execute_lsl (cpsr : StatusRegister) (value offset : Nat) : Nat × StatusRegister :=
  if 0 < offset then
    let r1 := (checked_shl value (offset - 1)).getD 0
    let cpsr1 := { cpsr with carry := decide (Nat.land r1 2147483648 ≠ 0) }
    let r2 := r1 * 2 % U32_MOD
    (r2, cpsr1.set_nz_from r2)
  else (value, cpsr.set_nz_from value)

/-- op.rs `Cpu::execute_lsr`: amount 0 is treated as amount 32; shift by
amount minus one with `checked_shr` (0 on amount overflow), take the carry
from bit 0, then shift once more. -/
def execute_lsr (cpsr : StatusRegister) (value offset : Nat) : Nat × StatusRegister :=
  let off := if offset = 0 then 32 else offset
  let r1 := (checked_shr value (off - 1)).getD 0
  let cpsr1 := { cpsr with carry := decide (Nat.land r1 1 ≠ 0) }
  let r2 := r1 / 2
  (r2, cpsr1.set_nz_from r2)

/-- op.rs `Cpu::execute_asr`: amount 0 is treated as amount 32; sign
extending shift by amount minus one with `i32::checked_shr` (all ones or 0
on amount overflow, by the original sign), carry from bit 0, then one more
sign extending shift. -/
def execute_asr (cpsr : StatusRegister) (value offset : Nat) : Nat × StatusRegister :=
  let off := if offset = 0 then 32 else offset
  let overflow_result := if 2147483648 ≤ value then 4294967295 else 0
  let r1 := if off - 1 < 32 then asr32 value (off - 1) else overflow_result
  let cpsr1 := { cpsr with carry := decide (Nat.land r1 1 ≠ 0) }
  let r2 := asr32 r1 1
  (r2, cpsr1.set_nz_from r2)

/-- op.rs `Cpu::execute_ror`: for a nonzero amount, rotate right by amount
minus one, take the carry from bit 0, then rotate once more; amount 0
leaves value and carry alone. -/
def execute_ror (cpsr : StatusRegister) (value offset : Nat) : Nat × StatusRegister :=
  if 0 < offset then
    let r1 := rotateRight32 value (offset - 1)
    let cpsr1 := { cpsr with carry := decide (Nat.land r1 1 ≠ 0) }
    let r2 := rotateRight32 r1 1
    (r2, cpsr1.set_nz_from r2)
  else (value, cpsr.set_nz_from value)

/-- op.rs `Cpu::execute_bx`: when bit 0 of the target is clear, set the PC
to the target unchanged and switch to the Thumb state; otherwise mask the
low two bits of the target and switch to the Arm state; in both cases
reload the pipeline. -/
def execute_bx {B : Type} (bops : BusOps B) (cpu : Cpu) (bus : B) (pc : Nat) : Cpu × B :=
  let st :=
    if Nat.land pc 1 = 0 then
      ({ cpu with
          reg := { cpu.reg with
            r := fun j => if j = (15 : Fin 16) then pc else cpu.reg.r j,
            cpsr := { cpu.reg.cpsr with state := OperationState.Thumb } } } : Cpu)
    else
      ({ cpu with
          reg := { cpu.reg with
            r := fun j => if j = (15 : Fin 16) then Nat.land pc 4294967292 else cpu.reg.r j,
            cpsr := { cpu.reg.cpsr with state := OperationState.Arm } } } : Cpu)
  reload_pipeline bops st bus

end Op

namespace Thumb

/-- thumb.rs `Cpu::execute_add`: two-operand add; the 64-bit sum gives the
carry, the sign comparison gives the overflow, zero/negative come from the
truncated result. -/
def execute_add (cpsr : StatusRegister) (a b : Nat) : Nat × StatusRegister :=
  let result := a + b
  let a_neg := decide (2147483648 ≤ a)
  let b_neg := decide (2147483648 ≤ b)
  let same_sign := a_neg == b_neg
  let resL := result % U32_MOD
  let cpsr1 :=
    { cpsr with
      overflow := same_sign && (decide (2147483648 ≤ resL) != a_neg),
      carry := decide (4294967295 < result) }
  (resL, cpsr1.set_nz_from resL)

/-- thumb.rs `Cpu::execute_lsl_asl`: for a nonzero amount, an unchecked
`<<` by the amount and an unchecked `<<` by amount minus one for the
carry (program errors for amounts of 32 or more, hence `Option`); amount 0
leaves value and carry alone. -/
def execute_lsl_asl (cpsr : StatusRegister) (value offset : Nat) :
    Option (Nat × StatusRegister) :=
  if offset ≠ 0 then
    match shl_u32 value offset, shl_u32 value (offset - 1) with
    | some r, some t =>
      let cpsr1 := { cpsr with carry := decide (Nat.land t 2147483648 ≠ 0) }
      some (r, cpsr1.set_nz_from r)
    | _, _ => none
  else some (value, cpsr.set_nz_from value)

/-- thumb.rs `Cpu::execute_lsr_asr`: for a nonzero amount, an unchecked
logical or arithmetic `>>` by the amount, carry from an unchecked `>>` by
amount minus one (program errors for amounts of 32 or more); amount 0
leaves value and carry alone (no 0-as-32 special case here). -/
def execute_lsr_asr (cpsr : StatusRegister) (value offset : Nat) (logical : Bool) :
    Option (Nat × StatusRegister) :=
  if offset ≠ 0 then
    let rOpt :=
      if logical then shr_u32 value offset
      else if offset < 32 then some (asr32 value offset) else none
    match rOpt, shr_u32 value (offset - 1) with
    | some r, some t =>
      let cpsr1 := { cpsr with carry := decide (Nat.land t 1 ≠ 0) }
      some (r, cpsr1.set_nz_from r)
    | _, _ => none
  else some (value, cpsr.set_nz_from value)

/-- thumb.rs `Cpu::execute_ror`: a total `rotate_right` by the amount, but
the carry computation subtracts one from the `u8` amount (a program error
for amount 0) and shifts uncheckedly (a program error for amounts of 33 or
more), hence `Option`. -/
def execute_ror (cpsr : StatusRegister) (value offset : Nat) :
    Option (Nat × StatusRegister) :=
  let result := rotateRight32 value offset
  if offset = 0 then none
  else
    match shr_u32 value (offset - 1) with
    | some t =>
      let cpsr1 := { cpsr with carry := decide (Nat.land t 1 ≠ 0) }
      some (result, cpsr1.set_nz_from result)
    | none => none

end Thumb

/-- The entry-mode table as the spec documents it (spec section 4.1 and
the claim's own table), for comparison with the code's `entry_mode`. -/
def spec_entry_mode : Exception → OperationMode
  | Exception.Reset => OperationMode.Supervisor
  | Exception.SoftwareInterrupt => OperationMode.Supervisor
  | Exception.PrefetchAbort => OperationMode.Abort
  | Exception.DataAbort => OperationMode.Abort
  | Exception.Interrupt => OperationMode.Interrupt
  | Exception.FastInterrupt => OperationMode.FastInterrupt
  | Exception.UndefinedInstr => OperationMode.UndefinedInstr

/-- The vector-address table as the spec documents it (spec section 4.1). -/
def spec_vector_addr : Exception → Nat
  | Exception.Reset => 0
  | Exception.UndefinedInstr => 4
  | Exception.SoftwareInterrupt => 8
  | Exception.PrefetchAbort => 12
  | Exception.DataAbort => 16
  | Exception.Interrupt => 24
  | Exception.FastInterrupt => 28

/-- Clearing every pending flag of priority at most `n`, the net effect of
the servicing loop on the flags when the exception of priority `n` enters. -/
def clearPendingUpTo (cpu : Cpu) (n : Nat) : Cpu :=
  { cpu with
    pending_exceptions := fun q => if q.val ≤ n then false else cpu.pending_exceptions q }

/-- A pending exception the mask permits: what the loop in mod.rs
`Cpu::step` is looking for. -/
def serviceable (cpu : Cpu) (p : Fin 7) : Bool :=
  cpu.pending_exceptions p && !(maskBlocked cpu (from_priority_fin p))

/-- A concrete all-clear status register for witnesses. -/
def sr0 : StatusRegister :=
  { negative := false, zero := false, carry := false, overflow := false,
    irq_disabled := false, fiq_disabled := false,
    state := OperationState.Arm, mode := OperationMode.Supervisor }

/-- A concrete register file for witnesses. -/
def reg0 : Registers :=
  { r := fun _ => 0, cpsr := sr0, spsr := 0,
    bank13 := fun _ => 0, bank14 := fun _ => 0, bankSpsr := fun _ => 0,
    fiq8_12 := fun _ => 0 }

/-- A concrete running CPU state for witnesses. -/
def cpu0 : Cpu :=
  { run_state := RunState.Running, reg := reg0,
    pipeline_instrs := fun _ => 0, pending_exceptions := fun _ => false }

/-- Folding `clearPending` over a list of priorities, the state the
servicing loop accumulates while it skips unserviceable entries. -/
def clearList (cpu : Cpu) : List (Fin 7) → Cpu
  | [] => cpu
  | p :: ps => clearList (clearPending cpu p) ps

/-- Witness state for the saved-context claim: PC at 100, Thumb state,
carry set, so the snapshot is distinguishable. -/
def cpu_w4 : Cpu :=
  { cpu0 with
    reg := { reg0 with
      r := fun j => if j = (15 : Fin 16) then 100 else 0,
      cpsr := { sr0 with carry := true, state := OperationState.Thumb } } }

/-- Witness state for the priority claim: DataAbort (priority 1) and
SoftwareInterrupt (priority 5) pending simultaneously. -/
def cpu_w2 : Cpu :=
  { cpu0 with
    pending_exceptions := fun q => decide (q.val = 1) || decide (q.val = 5) }

/-- Witness state for the masked-interrupt claim: interrupt-disable set
and exactly the Interrupt flag pending. -/
def cpu_w3 : Cpu :=
  { cpu0 with
    reg := { reg0 with cpsr := { sr0 with irq_disabled := true } },
    pending_exceptions := fun q => decide (q = Exception.priority Exception.Interrupt) }

/-- A do-nothing instruction-execution stand-in for witnesses. -/
def execNopA : Cpu → Unit → Nat → Cpu × Unit := fun c b _ => (c, b)

/-- A do-nothing 16-bit-set execution stand-in for witnesses. -/
def execNopT : Cpu → Unit → Nat → Cpu × Unit := fun c b _ => (c, b)

lemma fin16_val_14 : (14 : Fin 16).val = 14 := rfl

lemma fin16_val_15 : (15 : Fin 16).val = 15 := rfl

/-- Claim C1: entering any of the seven exception kinds from a running CPU
(the mask permitting, as `step` requires) leaves the documented entry
mode, the 32-bit Arm state, the interrupt-disable flag set, the
fast-interrupt-disable flag set exactly for Reset/FastInterrupt or when it
was already set, and, after the pipeline step that completes the tick, the
PC at the kind's vector address plus 8. -/
theorem exception_entry_state_claim1 {B : Type} (bops : BusOps B) (cpu : Cpu) (bus : B)
    (k : Exception) (hm : maskBlocked cpu k = false) :
    (enter_exception bops cpu bus k).2 = true ∧
    (step_pipeline bops (enter_exception bops cpu bus k).1.1
      (enter_exception bops cpu bus k).1.2).1.reg.cpsr.mode = spec_entry_mode k ∧
    (step_pipeline bops (enter_exception bops cpu bus k).1.1
      (enter_exception bops cpu bus k).1.2).1.reg.cpsr.state = OperationState.Arm ∧
    (step_pipeline bops (enter_exception bops cpu bus k).1.1
      (enter_exception bops cpu bus k).1.2).1.reg.cpsr.irq_disabled = true ∧
    (step_pipeline bops (enter_exception bops cpu bus k).1.1
      (enter_exception bops cpu bus k).1.2).1.reg.cpsr.fiq_disabled =
      (decide (k = Exception.Reset) || decide (k = Exception.FastInterrupt) ||
        cpu.reg.cpsr.fiq_disabled) ∧
    (step_pipeline bops (enter_exception bops cpu bus k).1.1
      (enter_exception bops cpu bus k).1.2).1.reg.r 15 = spec_vector_addr k + 8 := by
  cases k <;>
    simp [enter_exception, hm, reload_pipeline, step_pipeline, Registers.change_mode,
      Exception.entry_mode, Exception.vector_addr, Exception.disables_fiq, spec_entry_mode,
      spec_vector_addr, alignedPc, fetchInstr, OperationState.instr_size, U32_MOD,
      fin16_val_15, fin16_val_14, Bool.or_comm] <;>
    decide

/-- Witness for C1 at the FastInterrupt kind on the concrete state `cpu0`:
the mask permits entry and the PC lands at vector 0x1c plus 8 = 36. -/
theorem exception_entry_state_claim1_witness :
    maskBlocked cpu0 Exception.FastInterrupt = false ∧
    (step_pipeline NullBusOps (enter_exception NullBusOps cpu0 () Exception.FastInterrupt).1.1
      (enter_exception NullBusOps cpu0 () Exception.FastInterrupt).1.2).1.reg.r 15 =
      spec_vector_addr Exception.FastInterrupt + 8 ∧
    spec_vector_addr Exception.FastInterrupt + 8 = 36 :=
  ⟨by decide,
   (exception_entry_state_claim1 NullBusOps cpu0 () Exception.FastInterrupt
      (by decide)).2.2.2.2.2,
   by decide⟩

/-- Claim C4: for every exception kind (in particular every non-Reset
kind) whose entry the mask permits, entry stores the complete pre-entry
status-register bits into the new mode's saved status register and sets
the link register to the pre-entry PC minus 4 (wrapping), whatever the
instruction-set state was before entry. -/
theorem entry_saves_context_claim4 {B : Type} (bops : BusOps B) (cpu : Cpu) (bus : B)
    (k : Exception) (hk : k ≠ Exception.Reset) (hm : maskBlocked cpu k = false) :
    (enter_exception bops cpu bus k).1.1.reg.spsr = StatusRegister.bits cpu.reg.cpsr ∧
    (enter_exception bops cpu bus k).1.1.reg.r 14 =
      (cpu.reg.r 15 + (U32_MOD - 4)) % U32_MOD ∧
    (4 ≤ cpu.reg.r 15 → cpu.reg.r 15 < U32_MOD →
      (enter_exception bops cpu bus k).1.1.reg.r 14 = cpu.reg.r 15 - 4) := by
  have h1 : (enter_exception bops cpu bus k).1.1.reg.spsr =
      StatusRegister.bits cpu.reg.cpsr := by
    simp [enter_exception, hm, reload_pipeline, step_pipeline, Registers.change_mode,
      fin16_val_15, fin16_val_14]
  have h2 : (enter_exception bops cpu bus k).1.1.reg.r 14 =
      (cpu.reg.r 15 + (U32_MOD - 4)) % U32_MOD := by
    simp [enter_exception, hm, reload_pipeline, step_pipeline, Registers.change_mode,
      OperationState.instr_size, fin16_val_15, fin16_val_14]
  refine ⟨h1, h2, fun hlo hhi => ?_⟩
  rw [h2]
  simp only [U32_MOD] at hhi ⊢
  omega

/-- Witness for C4 at SoftwareInterrupt on a state with PC 100, Thumb
state and carry set: the link register ends at 96 and the saved status
register holds the packed pre-entry bits. -/
theorem entry_saves_context_claim4_witness :
    (enter_exception NullBusOps cpu_w4 () Exception.SoftwareInterrupt).1.1.reg.r 14 =
      cpu_w4.reg.r 15 - 4 ∧
    cpu_w4.reg.r 15 - 4 = 96 ∧
    (enter_exception NullBusOps cpu_w4 () Exception.SoftwareInterrupt).1.1.reg.spsr =
      StatusRegister.bits cpu_w4.reg.cpsr :=
  ⟨(entry_saves_context_claim4 NullBusOps cpu_w4 () Exception.SoftwareInterrupt
      (by decide) (by decide)).2.2 (by decide) (by decide),
   by decide,
   (entry_saves_context_claim4 NullBusOps cpu_w4 () Exception.SoftwareInterrupt
      (by decide) (by decide)).1⟩

/-- Claim C5 (code bug): op.rs `execute_bx` has the two branches swapped:
branching to address 9 (bit 0 set) puts the CPU in the 32-bit Arm state,
and branching to address 8 (bit 0 clear) puts it in the 16-bit Thumb
state, the reverse of what the spec and the repository's own `step_works`
test (which expects Thumb after `BX` to `8 | 1`) require. -/
theorem execute_bx_swapped_claim5 :
    (Op.execute_bx NullBusOps cpu0 () 9).1.reg.cpsr.state = OperationState.Arm ∧
    (Op.execute_bx NullBusOps cpu0 () 9).1.reg.r 15 = 12 ∧
    (Op.execute_bx NullBusOps cpu0 () 8).1.reg.cpsr.state = OperationState.Thumb ∧
    (Op.execute_bx NullBusOps cpu0 () 8).1.reg.r 15 = 10 ∧
    OperationState.Arm ≠ OperationState.Thumb := by
  refine ⟨by decide, by decide, by decide, by decide, by decide⟩

/-- Claim C8: `reset` forces the running state, clears every pending
exception, enters the Reset exception (Supervisor mode, Arm state, vector
0, hence PC 8 after the single pipeline advance), zeroes the link
register, and preserves the four pre-reset condition flags. -/
theorem reset_claim8 {B : Type} (bops : BusOps B) (cpu : Cpu) (bus : B) :
    (reset bops cpu bus).1.run_state = RunState.Running ∧
    (∀ q, (reset bops cpu bus).1.pending_exceptions q = false) ∧
    (reset bops cpu bus).1.reg.r 14 = 0 ∧
    (reset bops cpu bus).1.reg.r 15 = 8 ∧
    (reset bops cpu bus).1.reg.cpsr.negative = cpu.reg.cpsr.negative ∧
    (reset bops cpu bus).1.reg.cpsr.zero = cpu.reg.cpsr.zero ∧
    (reset bops cpu bus).1.reg.cpsr.carry = cpu.reg.cpsr.carry ∧
    (reset bops cpu bus).1.reg.cpsr.overflow = cpu.reg.cpsr.overflow ∧
    (reset bops cpu bus).1.reg.cpsr.mode = OperationMode.Supervisor ∧
    (reset bops cpu bus).1.reg.cpsr.state = OperationState.Arm := by
  simp [reset, enter_exception, maskBlocked, reload_pipeline, step_pipeline,
    Registers.change_mode, Exception.entry_mode, Exception.vector_addr,
    Exception.disables_fiq, alignedPc, fetchInstr, OperationState.instr_size, U32_MOD,
    fin16_val_15, fin16_val_14] <;>
    decide

/-- Claim C9 (code bug): immediately after `reload_pipeline` the current
slot holds the old next-slot value, not the empty value 0 (the `0` written
into slot 0 is immediately overwritten by the shift in `step_pipeline`,
contradicting the function's own NOTE); the remaining conjuncts of the
claim do hold: the next slot gets the instruction fetched at the aligned
PC and the PC advances by one instruction width past the aligned value. -/
theorem reload_pipeline_claim9 {B : Type} (bops : BusOps B) (cpu : Cpu) (bus : B) :
    (reload_pipeline bops cpu bus).1.pipeline_instrs 0 = cpu.pipeline_instrs 1 ∧
    (reload_pipeline bops cpu bus).1.pipeline_instrs 1 =
      (fetchInstr bops cpu.reg.cpsr.state bus
        (alignedPc cpu.reg.cpsr.state (cpu.reg.r 15))).1 ∧
    (reload_pipeline bops cpu bus).1.reg.r 15 =
      (alignedPc cpu.reg.cpsr.state (cpu.reg.r 15) + cpu.reg.cpsr.state.instr_size) %
        U32_MOD ∧
    (reload_pipeline NullBusOps
        { cpu0 with pipeline_instrs := fun i => if i = (0 : Fin 2) then 5 else 7 }
        ()).1.pipeline_instrs 0 = 7 ∧
    (7 : Nat) ≠ 0 :=
  ⟨rfl, rfl, rfl, by decide, by decide⟩

lemma asr32_31_lt (v : Nat) (h : v < 2147483648) : asr32 v 31 = 0 := by
  simp [asr32, h, Nat.div_eq_of_lt]

lemma asr32_31_ge (v : Nat) (hv : v < U32_MOD) (h : 2147483648 ≤ v) :
    asr32 v 31 = 4294967295 := by
  have h1 : v / 2 ^ 31 = 1 := by
    simp only [U32_MOD] at hv
    omega
  simp only [asr32, Nat.not_lt.mpr h, if_false, U32_MOD]
  omega

lemma asr32_one_zero : asr32 0 1 = 0 := by decide

lemma asr32_one_neg : asr32 4294967295 1 = 4294967295 := by decide

lemma land_one (x : Nat) : Nat.land x 1 = x % 2 := Nat.and_one_is_mod x

/-- Claim C6: the three-operand add primitive returns the 32-bit wrapping
sum, and with flag update requested sets overflow exactly when the signed
addition of `a` and `b` or the subsequent signed addition of the wrapped
intermediate and `c` leaves the `i32` range, carry exactly when the exact
sum exceeds `0xFFFFFFFF`, and zero/negative from the low 32 bits. -/
theorem execute_add_impl_claim6 (cpsr : StatusRegister) (a b c : Nat)
    (ha : a < U32_MOD) (hb : b < U32_MOD) (hc : c < U32_MOD) :
    (Op.execute_add_impl cpsr true a b c).1 = (a + b + c) % U32_MOD ∧
    (Op.execute_add_impl cpsr false a b c).1 = (a + b + c) % U32_MOD ∧
    (Op.execute_add_impl cpsr false a b c).2 = cpsr ∧
    ((Op.execute_add_impl cpsr true a b c).2.overflow = true ↔
      (toI32 a + toI32 b < -2147483648 ∨ 2147483647 < toI32 a + toI32 b ∨
       toI32 ((a + b) % U32_MOD) + toI32 c < -2147483648 ∨
       2147483647 < toI32 ((a + b) % U32_MOD) + toI32 c)) ∧
    ((Op.execute_add_impl cpsr true a b c).2.carry = true ↔ U32_MOD ≤ a + b + c) ∧
    ((Op.execute_add_impl cpsr true a b c).2.zero = true ↔ (a + b + c) % U32_MOD = 0) ∧
    ((Op.execute_add_impl cpsr true a b c).2.negative =
      Nat.testBit ((a + b + c) % U32_MOD) 31) := by
  have hmod : ((a + b) % U32_MOD + c) % U32_MOD = (a + b + c) % U32_MOD := by
    simp only [U32_MOD]
    omega
  refine ⟨?_, ?_, ?_, ?_, ?_, ?_, ?_⟩ <;>
    simp [Op.execute_add_impl, i32_overflowing_add, StatusRegister.set_nz_from, hmod,
      or_assoc] <;>
    simp only [U32_MOD] <;>
    omega

/-- Witness for C6 at `a = 0x7FFFFFFF`, `b = 1`, `c = 1`: the wrapped sum
is `0x80000001` and the first signed addition overflows. -/
theorem execute_add_impl_claim6_witness :
    (Op.execute_add_impl sr0 true 2147483647 1 1).1 = (2147483647 + 1 + 1) % U32_MOD ∧
    (2147483647 + 1 + 1) % U32_MOD = 2147483649 ∧
    ((Op.execute_add_impl sr0 true 2147483647 1 1).2.carry = true ↔
      U32_MOD ≤ 2147483647 + 1 + 1) :=
  ⟨(execute_add_impl_claim6 sr0 2147483647 1 1 (by decide) (by decide) (by decide)).1,
   by decide,
   (execute_add_impl_claim6 sr0 2147483647 1 1 (by decide) (by decide) (by decide)).2.2.2.2.1⟩

/-- Claim C7 counterexample: the 16-bit-set helper `execute_lsr_asr` at
amount 0 returns the value unchanged with the carry untouched, not the
amount-32 behavior (result 0, carry from bit 31) the claim requires of
every dispatched shift routine: at value 4 the result is 4, not 0. -/
theorem thumb_lsr_zero_counterexample_claim7 :
    Option.map Prod.fst (Thumb.execute_lsr_asr sr0 4 0 true) = some 4 ∧
    Option.map (fun p => p.2.carry) (Thumb.execute_lsr_asr sr0 4 0 true) = some false ∧
    (4 : Nat) ≠ 0 := by
  decide

/-- Claim C7 as amended: shift-left by amount 0 is the identity on value
and carry (only zero/negative recompute) in both the 32-bit-set
`execute_lsl` and the 16-bit-set `execute_lsl_asl`; the 32-bit-set
`execute_lsr` treats amount 0 exactly as amount 32 (result 0, carry from
bit 31); but the 16-bit-set `execute_lsr_asr` treats amount 0 as the
identity on value and carry instead. -/
theorem shift_zero_amended_claim7 (sr : StatusRegister) (v : Nat) (hv : v < U32_MOD) :
    Op.execute_lsl sr v 0 = (v, sr.set_nz_from v) ∧
    Thumb.execute_lsl_asl sr v 0 = some (v, sr.set_nz_from v) ∧
    Op.execute_lsr sr v 0 = Op.execute_lsr sr v 32 ∧
    (Op.execute_lsr sr v 0).1 = 0 ∧
    (Op.execute_lsr sr v 0).2.carry = Nat.testBit v 31 ∧
    (∀ logical, Thumb.execute_lsr_asr sr v 0 logical = some (v, sr.set_nz_from v)) := by
  refine ⟨by simp [Op.execute_lsl], by simp [Thumb.execute_lsl_asl], rfl, ?_, ?_, ?_⟩
  · simp [Op.execute_lsr, checked_shr, Nat.shiftRight_eq_div_pow]
    simp only [U32_MOD] at hv
    omega
  · simp [Op.execute_lsr, checked_shr, Nat.shiftRight_eq_div_pow, land_one,
      Nat.testBit_to_div_mod, StatusRegister.set_nz_from]
  · intro logical
    simp [Thumb.execute_lsr_asr]

/-- Witness for C7 at `v = 0x80000000`: the 32-bit-set `execute_lsr` at
amount 0 yields result 0 with carry from bit 31 (true here). -/
theorem shift_zero_amended_claim7_witness :
    (Op.execute_lsr sr0 2147483648 0).1 = 0 ∧
    (Op.execute_lsr sr0 2147483648 0).2.carry = Nat.testBit 2147483648 31 ∧
    Nat.testBit 2147483648 31 = true :=
  ⟨(shift_zero_amended_claim7 sr0 2147483648 (by decide)).2.2.2.1,
   (shift_zero_amended_claim7 sr0 2147483648 (by decide)).2.2.2.2.1,
   by decide⟩

/-- Claim C10 counterexample: the 16-bit-set helpers are not total: the
unchecked host shifts make `execute_lsl_asl` (and `execute_lsr_asr`) a
program error for amounts of 32 or more, and the `u8` decrement makes
`execute_ror` a program error for amount 0 (panics in debug builds; in
release builds the shift amount is masked, which is still not the claimed
zero/sign-fill result). -/
theorem thumb_shift_trap_counterexample_claim10 :
    Thumb.execute_lsl_asl sr0 1 32 = none ∧
    Thumb.execute_ror sr0 1 0 = none ∧
    Thumb.execute_lsr_asr sr0 1 32 true = none := by
  decide

/-- Claim C10 as amended: the 32-bit-set routines are total on the full
domain: `execute_lsl`/`execute_lsr` yield 0 for amounts of 32 or more,
`execute_asr` yields the sign fill, and the subtract wrappers never hit
the unchecked negation; the 16-bit-set helpers however are only defined
for amounts below 32 (`execute_lsl_asl`, `execute_lsr_asr`) respectively
in 1..32 (`execute_ror`). -/
theorem shift_totality_amended_claim10 (sr : StatusRegister) (uc logical : Bool)
    (v a b off : Nat) (hv : v < U32_MOD) (hoff : off < 256) :
    (32 ≤ off → (Op.execute_lsl sr v off).1 = 0) ∧
    (32 ≤ off → (Op.execute_lsr sr v off).1 = 0) ∧
    (32 ≤ off → (Op.execute_asr sr v off).1 =
      (if 2147483648 ≤ v then 4294967295 else 0)) ∧
    (Op.execute_sub_cmp sr uc a b).isSome = true ∧
    (Op.execute_sbc sr uc a b).isSome = true ∧
    ((Thumb.execute_lsl_asl sr v off).isSome = true ↔ off < 32) ∧
    ((Thumb.execute_lsr_asr sr v off logical).isSome = true ↔ off < 32) ∧
    ((Thumb.execute_ror sr v off).isSome = true ↔ (1 ≤ off ∧ off ≤ 32)) := by
  refine ⟨?_, ?_, ?_, ?_, ?_, ?_, ?_, ?_⟩
  · intro h32
    have hpos : 0 < off := by omega
    rcases Nat.lt_or_ge off 33 with h33 | h33
    · have he : off = 32 := by omega
      subst he
      simp [Op.execute_lsl, checked_shl, Nat.shiftLeft_eq, StatusRegister.set_nz_from]
      simp only [U32_MOD]
      omega
    · have hno : ¬ off - 1 < 32 := by omega
      simp [Op.execute_lsl, checked_shl, hno, hpos, StatusRegister.set_nz_from]
  · intro h32
    rcases Nat.lt_or_ge off 33 with h33 | h33
    · have he : off = 32 := by omega
      subst he
      simp [Op.execute_lsr, checked_shr, Nat.shiftRight_eq_div_pow,
        StatusRegister.set_nz_from]
      simp only [U32_MOD] at hv
      omega
    · have hne : off ≠ 0 := by omega
      have hno : ¬ off - 1 < 32 := by omega
      simp [Op.execute_lsr, checked_shr, hne, hno, StatusRegister.set_nz_from]
  · intro h32
    have hne : off ≠ 0 := by omega
    rcases Nat.lt_or_ge off 33 with h33 | h33
    · have he : off = 32 := by omega
      subst he
      rcases Nat.lt_or_ge v 2147483648 with hvs | hvs
      · simp [Op.execute_asr, StatusRegister.set_nz_from, asr32_31_lt v hvs,
          asr32_one_zero, Nat.not_le.mpr hvs]
      · simp [Op.execute_asr, StatusRegister.set_nz_from, asr32_31_ge v hv hvs,
          asr32_one_neg, hvs]
    · have hno : ¬ off - 1 < 32 := by omega
      rcases Nat.lt_or_ge v 2147483648 with hvs | hvs
      · simp [Op.execute_asr, StatusRegister.set_nz_from, hne, hno, asr32_one_zero,
          Nat.not_le.mpr hvs]
      · simp [Op.execute_asr, StatusRegister.set_nz_from, hne, hno, asr32_one_neg, hvs]
  · simp [Op.execute_sub_cmp, Op.execute_sub_impl, i32_neg, U32_MOD]
  · cases h : sr.carry <;>
      simp [Op.execute_sbc, Op.execute_sub_impl, i32_neg, h, U32_MOD]
  · by_cases h0 : off = 0
    · simp [Thumb.execute_lsl_asl, h0]
    · by_cases h32 : off < 32
      · have h1 : off - 1 < 32 := by omega
        simp [Thumb.execute_lsl_asl, shl_u32, h0, h32, h1]
      · simp [Thumb.execute_lsl_asl, shl_u32, h0, h32]
  · by_cases h0 : off = 0
    · simp [Thumb.execute_lsr_asr, h0]
    · by_cases h32 : off < 32
      · have h1 : off - 1 < 32 := by omega
        cases logical <;> simp [Thumb.execute_lsr_asr, shr_u32, h0, h32, h1]
      · cases logical <;> simp [Thumb.execute_lsr_asr, shr_u32, h0, h32]
  · by_cases h0 : off = 0
    · simp [Thumb.execute_ror, h0]
    · by_cases h32 : off - 1 < 32
      · simp [Thumb.execute_ror, shr_u32, h0, h32]
        omega
      · simp [Thumb.execute_ror, shr_u32, h0, h32]
        omega

/-- Witness for C10 at amount 40: the 32-bit-set shift-left yields 0 while
the 16-bit-set helper is undefined (amount not below 32). -/
theorem shift_totality_amended_claim10_witness :
    (5 : Nat) < U32_MOD ∧ (40 : Nat) < 256 ∧
    (Op.execute_lsl sr0 5 40).1 = 0 ∧
    ((Thumb.execute_lsl_asl sr0 5 40).isSome = true ↔ (40 : Nat) < 32) ∧
    ¬ ((40 : Nat) < 32) :=
  ⟨by decide, by decide,
   (shift_totality_amended_claim10 sr0 true true 5 0 0 40 (by decide) (by decide)).1
     (by decide),
   (shift_totality_amended_claim10 sr0 true true 5 0 0 40 (by decide)
     (by decide)).2.2.2.2.2.1,
   by decide⟩

lemma Cpu_ext (c1 c2 : Cpu) (h1 : c1.run_state = c2.run_state) (h2 : c1.reg = c2.reg)
    (h3 : c1.pipeline_instrs = c2.pipeline_instrs)
    (h4 : c1.pending_exceptions = c2.pending_exceptions) : c1 = c2 := by
  cases c1
  cases c2
  simp_all

lemma from_priority_fin_priority (k : Exception) : from_priority_fin k.priority = k := by
  cases k <;> rfl

lemma clearList_reg (ps : List (Fin 7)) : ∀ cpu : Cpu, (clearList cpu ps).reg = cpu.reg := by
  induction ps with
  | nil => intro cpu; rfl
  | cons p ps ih => intro cpu; exact ih (clearPending cpu p)

lemma clearList_pending (ps : List (Fin 7)) :
    ∀ (cpu : Cpu) (q : Fin 7), (clearList cpu ps).pending_exceptions q =
      if q ∈ ps then false else cpu.pending_exceptions q := by
  induction ps with
  | nil => intro cpu q; simp [clearList]
  | cons p ps ih =>
    intro cpu q
    rw [clearList, ih]
    by_cases hq : q = p
    · subst hq
      simp [clearPending]
    · simp [clearPending, hq, List.mem_cons]

lemma maskBlocked_clearList (ps : List (Fin 7)) (cpu : Cpu) (e : Exception) :
    maskBlocked (clearList cpu ps) e = maskBlocked cpu e := by
  unfold maskBlocked
  rw [clearList_reg]

lemma enter_exception_blocked {B : Type} (bops : BusOps B) (cpu : Cpu) (bus : B)
    (e : Exception) (h : maskBlocked cpu e = true) :
    enter_exception bops cpu bus e = ((cpu, bus), false) := by
  simp [enter_exception, h]

lemma enter_exception_enters {B : Type} (bops : BusOps B) (cpu : Cpu) (bus : B)
    (e : Exception) (h : maskBlocked cpu e = false) :
    (enter_exception bops cpu bus e).2 = true := by
  simp [enter_exception, h]

lemma enter_exception_pending {B : Type} (bops : BusOps B) (cpu : Cpu) (bus : B)
    (e : Exception) :
    (enter_exception bops cpu bus e).1.1.pending_exceptions = cpu.pending_exceptions := by
  unfold enter_exception
  split <;> rfl

lemma step_pipeline_pending {B : Type} (bops : BusOps B) (cpu : Cpu) (bus : B) :
    (step_pipeline bops cpu bus).1.pending_exceptions = cpu.pending_exceptions := rfl

lemma step_exceptions_skip {B : Type} (bops : BusOps B) (cpu : Cpu) (bus : B) (p : Fin 7)
    (rest : List (Fin 7)) (h : serviceable cpu p = false) :
    step_exceptions bops cpu bus (p :: rest) =
      step_exceptions bops (clearPending cpu p) bus rest := by
  conv_lhs => rw [step_exceptions]
  by_cases hp : cpu.pending_exceptions p = true
  · have hm : maskBlocked cpu (from_priority_fin p) = true := by
      have h2 := h
      simp [serviceable, hp] at h2
      exact h2
    have hm2 : maskBlocked (clearPending cpu p) (from_priority_fin p) = true := hm
    have hb := enter_exception_blocked bops (clearPending cpu p) bus (from_priority_fin p) hm2
    simp [hp, hb]
  · simp [hp]

lemma step_exceptions_skip_all {B : Type} (bops : BusOps B) (low : List (Fin 7)) :
    ∀ (cpu : Cpu) (bus : B) (rest : List (Fin 7)),
      (∀ p ∈ low, serviceable cpu p = false) →
      step_exceptions bops cpu bus (low ++ rest) =
        step_exceptions bops (clearList cpu low) bus rest := by
  induction low with
  | nil => intro cpu bus rest h; rfl
  | cons p ps ih =>
    intro cpu bus rest h
    rw [List.cons_append, step_exceptions_skip bops cpu bus p _ (h p (by simp)), clearList]
    apply ih
    intro q hq
    by_cases hqp : q = p
    · subst hqp
      simp [serviceable, clearPending]
    · have hs := h q (by simp [hq])
      simp only [serviceable, clearPending] at hs ⊢
      simpa [hqp] using hs

lemma step_exceptions_service {B : Type} (bops : BusOps B) (cpu : Cpu) (bus : B) (p : Fin 7)
    (rest : List (Fin 7)) (hp : cpu.pending_exceptions p = true)
    (hm : maskBlocked cpu (from_priority_fin p) = false) :
    step_exceptions bops cpu bus (p :: rest) =
      (step_pipeline bops
        (enter_exception bops (clearPending cpu p) bus (from_priority_fin p)).1.1
        (enter_exception bops (clearPending cpu p) bus (from_priority_fin p)).1.2, true) := by
  conv_lhs => rw [step_exceptions]
  have hm2 : maskBlocked (clearPending cpu p) (from_priority_fin p) = false := hm
  have h2 := enter_exception_enters bops (clearPending cpu p) bus (from_priority_fin p) hm2
  simp [hp, h2]

lemma step_exceptions_main {B : Type} (bops : BusOps B) (cpu : Cpu) (bus : B) (k : Exception)
    (low rest : List (Fin 7))
    (hsplit : priorityList = low ++ k.priority :: rest)
    (hlow : ∀ p ∈ low, p.val < k.priority.val)
    (hmin : ∀ j : Fin 7, j.val < k.priority.val → serviceable cpu j = false)
    (hp : cpu.pending_exceptions k.priority = true)
    (hm : maskBlocked cpu k = false)
    (hcc : clearPending (clearList cpu low) k.priority =
      clearPendingUpTo cpu k.priority.val) :
    step_exceptions bops cpu bus priorityList =
      (step_pipeline bops
        (enter_exception bops (clearPendingUpTo cpu k.priority.val) bus k).1.1
        (enter_exception bops (clearPendingUpTo cpu k.priority.val) bus k).1.2, true) := by
  rw [hsplit, step_exceptions_skip_all bops low cpu bus _ (fun p hmem => hmin p (hlow p hmem))]
  have hpk : (clearList cpu low).pending_exceptions k.priority = true := by
    rw [clearList_pending]
    have hnm : k.priority ∉ low := fun hmem => by
      have := hlow _ hmem
      omega
    simp [hnm, hp]
  have hmk : maskBlocked (clearList cpu low) (from_priority_fin k.priority) = false := by
    rw [maskBlocked_clearList, from_priority_fin_priority]
    exact hm
  rw [step_exceptions_service bops (clearList cpu low) bus k.priority rest hpk hmk]
  rw [from_priority_fin_priority, hcc]

/-- Claim C2: a `step` of a running CPU services exactly the
highest-priority pending exception the mask allows (`k`, by the
hypotheses: `k` pending and unmasked, everything of strictly higher
priority unserviceable): the step equals the entry of `k` on the state
with all flags of priority up to `k` cleared followed by one pipeline
step, independently of the instruction-execution functions (so no
ordinary instruction executes); flags of priority at most `k` end
cleared, strictly lower-priority flags keep their values for later
ticks. -/
theorem step_priority_claim2 {B : Type} (bops : BusOps B)
    (execArm execThumb : Cpu → B → Nat → Cpu × B) (cpu : Cpu) (bus : B) (k : Exception)
    (hrun : cpu.run_state = RunState.Running)
    (hp : cpu.pending_exceptions k.priority = true)
    (hm : maskBlocked cpu k = false)
    (hmin : ∀ j : Fin 7, j.val < k.priority.val → serviceable cpu j = false) :
    step bops execArm execThumb cpu bus =
      step_pipeline bops
        (enter_exception bops (clearPendingUpTo cpu k.priority.val) bus k).1.1
        (enter_exception bops (clearPendingUpTo cpu k.priority.val) bus k).1.2 ∧
    (∀ j : Fin 7, j.val ≤ k.priority.val →
      (step bops execArm execThumb cpu bus).1.pending_exceptions j = false) ∧
    (∀ j : Fin 7, k.priority.val < j.val →
      (step bops execArm execThumb cpu bus).1.pending_exceptions j =
        cpu.pending_exceptions j) := by
  have hse : step_exceptions bops cpu bus priorityList =
      (step_pipeline bops
        (enter_exception bops (clearPendingUpTo cpu k.priority.val) bus k).1.1
        (enter_exception bops (clearPendingUpTo cpu k.priority.val) bus k).1.2, true) := by
    cases k with
    | Reset =>
      exact step_exceptions_main bops cpu bus Exception.Reset [] [1, 2, 3, 4, 5, 6] rfl
        (by decide) hmin hp hm
        (Cpu_ext _ _ rfl rfl rfl (by funext q; fin_cases q <;> rfl))
    | DataAbort =>
      exact step_exceptions_main bops cpu bus Exception.DataAbort [0] [2, 3, 4, 5, 6] rfl
        (by decide) hmin hp hm
        (Cpu_ext _ _ rfl rfl rfl (by funext q; fin_cases q <;> rfl))
    | FastInterrupt =>
      exact step_exceptions_main bops cpu bus Exception.FastInterrupt [0, 1] [3, 4, 5, 6] rfl
        (by decide) hmin hp hm
        (Cpu_ext _ _ rfl rfl rfl (by funext q; fin_cases q <;> rfl))
    | Interrupt =>
      exact step_exceptions_main bops cpu bus Exception.Interrupt [0, 1, 2] [4, 5, 6] rfl
        (by decide) hmin hp hm
        (Cpu_ext _ _ rfl rfl rfl (by funext q; fin_cases q <;> rfl))
    | PrefetchAbort =>
      exact step_exceptions_main bops cpu bus Exception.PrefetchAbort [0, 1, 2, 3] [5, 6] rfl
        (by decide) hmin hp hm
        (Cpu_ext _ _ rfl rfl rfl (by funext q; fin_cases q <;> rfl))
    | SoftwareInterrupt =>
      exact step_exceptions_main bops cpu bus Exception.SoftwareInterrupt [0, 1, 2, 3, 4] [6]
        rfl (by decide) hmin hp hm
        (Cpu_ext _ _ rfl rfl rfl (by funext q; fin_cases q <;> rfl))
    | UndefinedInstr =>
      exact step_exceptions_main bops cpu bus Exception.UndefinedInstr [0, 1, 2, 3, 4, 5] []
        rfl (by decide) hmin hp hm
        (Cpu_ext _ _ rfl rfl rfl (by funext q; fin_cases q <;> rfl))
  have hstep : step bops execArm execThumb cpu bus =
      step_pipeline bops
        (enter_exception bops (clearPendingUpTo cpu k.priority.val) bus k).1.1
        (enter_exception bops (clearPendingUpTo cpu k.priority.val) bus k).1.2 := by
    simp [step, hrun, hse]
  refine ⟨hstep, ?_, ?_⟩
  · intro j hj
    rw [hstep, step_pipeline_pending, enter_exception_pending]
    simp only [clearPendingUpTo]
    rw [if_pos hj]
  · intro j hj
    rw [hstep, step_pipeline_pending, enter_exception_pending]
    simp only [clearPendingUpTo]
    rw [if_neg (Nat.not_le.mpr hj)]

/-- Witness for C2 with DataAbort and SoftwareInterrupt pending at once:
one step clears and services DataAbort (priority 1) and leaves
SoftwareInterrupt (priority 5) pending for a later tick. -/
theorem step_priority_claim2_witness :
    cpu_w2.pending_exceptions (Exception.priority Exception.DataAbort) = true ∧
    cpu_w2.pending_exceptions (Exception.priority Exception.SoftwareInterrupt) = true ∧
    (step NullBusOps execNopA execNopT cpu_w2 ()).1.pending_exceptions
      (Exception.priority Exception.DataAbort) = false ∧
    (step NullBusOps execNopA execNopT cpu_w2 ()).1.pending_exceptions
      (Exception.priority Exception.SoftwareInterrupt) = true :=
  ⟨by decide, by decide,
   (step_priority_claim2 NullBusOps execNopA execNopT cpu_w2 () Exception.DataAbort rfl
      (by decide) (by decide) (by decide)).2.1 (Exception.priority Exception.DataAbort)
      (by decide),
   by
    rw [(step_priority_claim2 NullBusOps execNopA execNopT cpu_w2 () Exception.DataAbort rfl
      (by decide) (by decide) (by decide)).2.2 (Exception.priority Exception.SoftwareInterrupt)
      (by decide)]
    decide⟩

/-- Claim C3: with the corresponding disable flag set, the attempted entry
of Interrupt (or FastInterrupt) changes nothing at all and reports
failure; a running step with only that exception pending clears the flag
without entering: the step equals an ordinary instruction tick on the
state with every pending flag cleared, so the dropped interrupt cannot
fire on a later tick unless raised again. -/
theorem masked_drop_claim3 {B : Type} (bops : BusOps B) (cpu : Cpu) (bus : B) (k : Exception)
    (hm : maskBlocked cpu k = true)
    (hrun : cpu.run_state = RunState.Running)
    (hpend : cpu.pending_exceptions = fun q => decide (q = k.priority)) :
    enter_exception bops cpu bus k = ((cpu, bus), false) ∧
    ∀ execArm execThumb : Cpu → B → Nat → Cpu × B,
      step bops execArm execThumb cpu bus =
        (let c1 : Cpu := { cpu with pending_exceptions := fun _ => false }
         let instr := c1.pipeline_instrs 0
         let e :=
           match c1.reg.cpsr.state with
           | OperationState.Arm => execArm c1 bus instr
           | OperationState.Thumb => execThumb c1 bus (instr % 65536)
         step_pipeline bops e.1 e.2) := by
  refine ⟨enter_exception_blocked bops cpu bus k hm, ?_⟩
  intro execArm execThumb
  have hserv : ∀ p ∈ priorityList, serviceable cpu p = false := by
    intro p hmem
    by_cases hpk : p = k.priority
    · subst hpk
      simp [serviceable, hpend, from_priority_fin_priority, hm]
    · simp [serviceable, hpend, hpk]
  have hse : step_exceptions bops cpu bus priorityList =
      ((clearList cpu priorityList, bus), false) := by
    have happ : priorityList = priorityList ++ [] := by simp
    rw [happ, step_exceptions_skip_all bops priorityList cpu bus [] hserv]
    rfl
  have hcl : clearList cpu priorityList =
      ({ cpu with pending_exceptions := fun _ => false } : Cpu) := by
    refine Cpu_ext _ _ rfl rfl rfl ?_
    funext q
    rw [clearList_pending]
    have hq : q ∈ priorityList := by fin_cases q <;> decide
    simp [hq]
  rw [hcl] at hse
  simp [step, hrun, hse]

/-- Witness for C3 on a state with interrupt-disable set and only
Interrupt pending: the attempted entry is a no-op and the pending flag is
clear after the step. -/
theorem masked_drop_claim3_witness :
    enter_exception NullBusOps cpu_w3 () Exception.Interrupt = ((cpu_w3, ()), false) ∧
    (step NullBusOps execNopA execNopT cpu_w3 ()).1.pending_exceptions
      (Exception.priority Exception.Interrupt) = false :=
  ⟨(masked_drop_claim3 NullBusOps cpu_w3 () Exception.Interrupt (by decide) rfl rfl).1,
   by
    rw [(masked_drop_claim3 NullBusOps cpu_w3 () Exception.Interrupt (by decide) rfl rfl).2
      execNopA execNopT]
    decide⟩

end Memetendo
